import Mathlib

/-!
# Verification of the Paper2Skill heuristic extraction pipeline

Shallow embedding of the Python sources of the Paper2Skill repository:

* `paper2skill/agents/nodes.py` - the heuristic (non-LLM) extraction stages
* `paper2skill/agents/workflow.py` - the pipeline orchestrator
* `paper2skill/generators/skill_generator.py` - the markdown renderer
* `paper2skill/loaders/document_loader.py` - the multi-format document loader

Python strings are modelled as Lean `String`; Python `dict`/`TypedDict`
states become Lean structures with `Option` fields (a `none` field models
an absent or `None` entry).  All definitions are executable.
-/

namespace Paper2Skill

/-! ## ASCII string helpers (Python `str` primitives)

The Python sources only use ASCII-relevant behaviour of `str.lower`,
`str.strip`, `str.split` and friends; the helpers below implement those
primitives character by character.
-/

/-- Python whitespace characters used by `str.strip()` / `str.split()`. -/
def isPyWS (c : Char) : Bool :=
  c = ' ' || c = '\t' || c = '\n' || c = '\x0d' || c = '\x0c' || c = '\x0b'

/-- Python `str.lower()` (ASCII range, which is all the sources rely on). -/
def asciiLower (s : String) : String :=
  ⟨s.data.map Char.toLower⟩

/-- The list `l₂` occurs as a prefix of `l₁`. -/
def prefixOf : List Char → List Char → Bool
  | [], _ => true
  | _ :: _, [] => false
  | p :: ps, c :: cs => p = c && prefixOf ps cs

/-- The pattern `pat` occurs as a contiguous run inside `l` (Python `pat in s`). -/
def infixOf (pat : List Char) : List Char → Bool
  | [] => prefixOf pat []
  | c :: cs => prefixOf pat (c :: cs) || infixOf pat cs

/-- Python `sub in s` (substring containment). -/
def containsSub (s sub : String) : Bool :=
  infixOf sub.data s.data

/-- Python `str.strip()` on a character list. -/
def stripL (l : List Char) : List Char :=
  ((l.dropWhile isPyWS).reverse.dropWhile isPyWS).reverse

/-- Python `str.strip()`. -/
def strip (s : String) : String :=
  ⟨stripL s.data⟩

/-- Python `str.lstrip(chars)`: drop leading characters from `cs`. -/
def lstripChars (cs : List Char) (s : String) : String :=
  ⟨s.data.dropWhile (fun c => cs.contains c)⟩

/-- Python `str.startswith(pre)`. -/
def startsWithStr (s pre : String) : Bool :=
  prefixOf pre.data s.data

/-- Helper for `splitChar`: split a character list at a separator,
accumulating the current piece in reverse. -/
def splitCharAux (sep : Char) : List Char → List Char → List (List Char)
  | acc, [] => [acc.reverse]
  | acc, c :: cs =>
    if c = sep then acc.reverse :: splitCharAux sep [] cs
    else splitCharAux sep (c :: acc) cs

/-- Python `str.split(sep)` for a one-character separator (keeps empty
pieces; `""` yields `[""]`). -/
def splitChar (sep : Char) (s : String) : List String :=
  (splitCharAux sep [] s.data).map fun l => ⟨l⟩

/-- Python `str.split('\n')`. -/
def splitLines (s : String) : List String :=
  splitChar '\n' s

/-- Helper for `splitWS`: whitespace-separated words of a character list. -/
def splitWSAux : Nat → List Char → List (List Char)
  | 0, _ => []
  | _ + 1, [] => []
  | fuel + 1, c :: cs =>
    if isPyWS c then splitWSAux fuel cs
    else (c :: cs.takeWhile (fun d => !isPyWS d)) ::
      splitWSAux fuel (cs.dropWhile (fun d => !isPyWS d))

/-- Python `str.split()` with no argument: whitespace-separated words,
no empty entries (`"".split()` is `[]`). -/
def splitWS (s : String) : List String :=
  (splitWSAux (s.data.length + 1) s.data).map fun l => ⟨l⟩

/-- Python `len(s.split())`, the word count used by the understanding stage. -/
def wordCount (s : String) : Nat :=
  (splitWS s).length

/-- Python slicing `s[:n]` (character based). -/
def takeChars (n : Nat) (s : String) : String :=
  ⟨s.data.take n⟩

/-- Returns true iff the line contains a digit immediately followed by `%`
(this is exactly when Python's `re.search(r'\d+%', line)` succeeds). -/
def hasPercentL : List Char → Bool
  | c₁ :: c₂ :: rest => (c₁.isDigit && c₂ = '%') || hasPercentL (c₂ :: rest)
  | _ => false

/-- Python `re.search(r'\d+%', line)` as a Boolean test. -/
def hasPercent (s : String) : Bool :=
  hasPercentL s.data

/-- First match of `re.search(r'\*\*([^*]+)\*\*', s)`: the captured group of
the leftmost bold-delimited span, if any. -/
def firstBoldL : Nat → List Char → Option (List Char)
  | 0, _ => none
  | _ + 1, [] => none
  | fuel + 1, c :: cs =>
    match c, cs with
    | '*', '*' :: rest =>
      let grp := rest.takeWhile (fun d => d ≠ '*')
      let after := rest.dropWhile (fun d => d ≠ '*')
      if grp ≠ [] ∧ after.take 2 = ['*', '*'] then some grp
      else firstBoldL fuel cs
    | _, _ => firstBoldL fuel cs

/-- Python `re.search(r'\*\*([^*]+)\*\*', s)`, returning the captured text. -/
def firstBold (s : String) : Option String :=
  (firstBoldL (s.data.length + 1) s.data).map fun l => ⟨l⟩

/-- All matches of `re.finditer(r'\*\*([^*]+)\*\*', text)`, in order:
non-overlapping bold-delimited spans, scanning resumes after each match. -/
def boldSpansL : Nat → List Char → List (List Char)
  | 0, _ => []
  | _ + 1, [] => []
  | fuel + 1, c :: cs =>
    match c, cs with
    | '*', '*' :: rest =>
      let grp := rest.takeWhile (fun d => d ≠ '*')
      let after := rest.dropWhile (fun d => d ≠ '*')
      if grp ≠ [] ∧ after.take 2 = ['*', '*'] then
        grp :: boldSpansL fuel (after.drop 2)
      else boldSpansL fuel cs
    | _, _ => boldSpansL fuel cs

/-- Python `re.finditer(r'\*\*([^*]+)\*\*', text)`: captured groups in match order. -/
def boldSpans (s : String) : List String :=
  (boldSpansL (s.data.length + 1) s.data).map fun l => ⟨l⟩

/-- Python `'\n'.join(l)` (also used with other separators). -/
def joinSep (sep : String) : List String → String
  | [] => ""
  | [x] => x
  | x :: y :: rest => x ++ sep ++ joinSep sep (y :: rest)

/-- Concatenation of a list of strings, in order. -/
def concatAll : List String → String
  | [] => ""
  | x :: rest => x ++ concatAll rest

/-! ## Data model (`paper2skill/agents/state.py`)

The `theorems`, `results` and `tools` entries of `AgentState` are dicts
with fixed string keys in the source; they become structures here.
-/

/-- One entry of the `theorems` sequence: `{name, description, type}`. -/
structure Thm where
  name : String
  description : String
  type : String
deriving DecidableEq

/-- One entry of the `results` sequence: `{description, type}`. -/
structure Res where
  description : String
  type : String
deriving DecidableEq

/-- One entry of the `tools` sequence: `{name, description, type}`. -/
structure Tool where
  name : String
  description : String
  type : String
deriving DecidableEq

/-- The `useful_value` record produced by `ValueExtractionAgent`. -/
structure UsefulValue where
  name : String
  type : String
  description : String
  why_useful : String
  key_principles : List String
  prerequisites : List String
deriving DecidableEq

/-- One step of the implementation guide. -/
structure GuideStep where
  step : Nat
  title : String
  description : String
  details : String
deriving DecidableEq

/-- The `implementation_guide` record produced by `ImplementationGuideAgent`. -/
structure ImplGuide where
  target : String
  target_type : String
  estimated_complexity : String
  steps : List GuideStep
  required_tools : List String
  external_resources : List String
  validation_criteria : List String
deriving DecidableEq

/-- Embeds `AgentState` from `state.py`: the pipeline state threaded through all
stages.  A `none` field models a key that is absent or bound to `None`. -/
structure AgentState where
  document_text : String
  document_path : String
  understanding : Option String
  main_concepts : Option (List String)
  theorems : Option (List Thm)
  tools : Option (List Tool)
  results : Option (List Res)
  useful_value : Option UsefulValue
  implementation_guide : Option ImplGuide
  skill_markdown : Option String
  error : Option String
deriving DecidableEq

/-! ## Concept/Theorem/Result stage
(`ConceptExtractionAgent._fallback_extraction`, nodes.py lines 93-155)
-/

/-- Keywords whose presence in the lowercased line classifies it as a
theorem line (nodes.py line 108). -/
def thmKeywords : List String := ["theorem", "lemma", "proposition"]

/-- A line is classified as a theorem line iff its lowercased form contains
`theorem`, `lemma` or `proposition`. -/
def isTheoremLine (line : String) : Bool :=
  thmKeywords.any fun k => containsSub (asciiLower line) k

/-- Theorem entry built from a theorem line (nodes.py lines 109-119): name
is the first bold span if present, else the first 100 characters of the
trimmed line. -/
def mkTheorem (line : String) : Thm :=
  { name := match firstBold line with
      | some n => n
      | none => takeChars 100 (strip line)
    description := "Extracted from document"
    type := "theorem" }

/-- Result keywords (nodes.py line 125). -/
def resultKeywords : List String := ["improvement", "reduction", "increase"]

/-- A line is result-like iff it contains a `\d+%` pattern or one of the
result keywords in its lowercased form (nodes.py line 125). -/
def isResultLine (line : String) : Bool :=
  hasPercent line ||
    resultKeywords.any (fun k => containsSub (asciiLower line) k)

/-- Exclusion applied to result lines (nodes.py line 126): the lowercased
line contains `theorem` or `lemma`.  Note `proposition` is NOT excluded. -/
def resultExcluded (line : String) : Bool :=
  ["theorem", "lemma"].any fun k => containsSub (asciiLower line) k

/-- Result entry built from a result line (nodes.py lines 127-130):
`line.strip().lstrip('-').strip()[:200]`. -/
def mkResult (line : String) : Res :=
  { description := takeChars 200 (strip (lstripChars ['-'] (strip line)))
    type := "empirical result" }

/-- Stop list of generic headings skipped by concept extraction
(nodes.py line 140). -/
def conceptStopList : List String :=
  ["introduction", "conclusion", "results", "methodology", "references"]

/-- Dedup step shared by the two concept sources (nodes.py lines 138-153):
a candidate `(c, ok)` is appended iff its extra conditions `ok` hold and
`c` is not in the seen set; the seen set then also records `c`. -/
def conceptStep (acc : List String × List String) (cand : String × Bool) :
    List String × List String :=
  if cand.2 ∧ cand.1 ∉ acc.2 then
    (acc.1 ++ [cand.1], acc.2 ++ [cand.1])
  else acc

/-- Heading-based concept candidates (nodes.py lines 133-142): lines whose
stripped form starts with `##`; the concept is the heading text; accepted
when nonempty and not in the stop list (dedup handled by `conceptStep`). -/
def headingCands (lines : List String) : List (String × Bool) :=
  lines.filterMap fun line =>
    let stripped := strip line
    if startsWithStr stripped "##" then
      let concept := strip (lstripChars ['#'] stripped)
      some (concept,
        concept != "" && !(conceptStopList.contains (asciiLower concept)))
    else none

/-- Prefixes that disqualify a bold term from being a concept
(nodes.py line 151). -/
def conceptBoldStops : List String := ["type:", "result", "finding"]

/-- Bold-term concept candidates (nodes.py lines 144-153): every bold span
in the whole text, stripped; accepted when its word count is between 2 and
5 and its lowercased form does not start with a stop prefix. -/
def boldCands (text : String) : List (String × Bool) :=
  (boldSpans text).map fun sp =>
    let term := strip sp
    (term,
      decide (2 ≤ (splitWS term).length) &&
        decide ((splitWS term).length ≤ 5) &&
        !(conceptBoldStops.any fun p => startsWithStr (asciiLower term) p))

/-- Embeds `ConceptExtractionAgent._fallback_extraction` (nodes.py lines 93-155):
returns `(main_concepts, theorems, results)` with their caps. -/
def fallback_extraction (text : String) :
    List String × List Thm × List Res :=
  let lines := splitLines text
  let theorems := (lines.filter isTheoremLine).map mkTheorem
  let results :=
    (lines.filter fun l => isResultLine l && !resultExcluded l).map mkResult
  let concepts :=
    ((headingCands lines ++ boldCands text).foldl conceptStep ([], [])).1
  (concepts.take 10, theorems.take 5, results.take 5)

/-! ## Tool identification stage
(`ToolIdentificationAgent._fallback_tool_identification`, nodes.py 210-288)

Each of the three pattern families produces a list of candidates
`(name, description, type, ok)` where `ok` collects the family's extra
conditions; all candidates are folded through one shared seen-names set
(`stepTool`), mirroring the three sequential loops of the source.
-/

/-- Embeds `KNOWN_LIBRARIES` (nodes.py lines 8-12). -/
def KNOWN_LIBRARIES : List String :=
  ["NumPy", "PyTorch", "TensorFlow", "NetworkX", "Redis", "Docker",
   "Kubernetes", "Pandas", "Scikit-learn", "Keras", "Flask", "Django",
   "FastAPI", "SQLAlchemy", "React", "Vue", "Angular", "Node", "Express",
   "MongoDB", "PostgreSQL", "MySQL"]

/-- Embeds `exclude_keywords` (nodes.py lines 219-223). -/
def excludeKeywords : List String :=
  ["result", "finding", "contribution", "type", "theorem", "lemma",
   "proposition", "validation", "empirical", "novel", "overview",
   "introduction", "conclusion", "methodology", "abstract"]

/-- Word characters of the `re` module's `\b` (ASCII range). -/
def isWordChar (c : Char) : Bool :=
  c.isAlphanum || c = '_'

/-- Trailing `\b` after a match ending in a word character: the rest is
empty or starts with a non-word character. -/
def wordBoundaryAfter : List Char → Bool
  | [] => true
  | c :: _ => !isWordChar c

/-- Drop a literal from the front of a character list, if it is a prefix. -/
def dropLit (lit : String) (l : List Char) : Option (List Char) :=
  if prefixOf lit.data l then some (l.drop lit.data.length) else none

/-- Optional connector `(?:for|:|-|â€“)?` of the list-item tool pattern,
tried greedily in alternation order. -/
def dropConnector (l : List Char) : List Char :=
  match dropLit "for" l with
  | some r => r
  | none =>
    match dropLit ":" l with
    | some r => r
    | none =>
      match dropLit "-" l with
      | some r => r
      | none =>
        match dropLit "â€“" l with
        | some r => r
        | none => l

/-- Python `re.match(r'^[-*]\s*\*\*([^*]+)\*\*\s*(?:for|:|-|â€“)?\s*(.*)$', s)`:
the captured `(bold name, trailing description)` of a list-item tool
mention (nodes.py line 230). -/
def p1Match (s : String) : Option (String × String) :=
  match s.data with
  | [] => none
  | m :: rest =>
    if m = '-' ∨ m = '*' then
      match rest.dropWhile isPyWS with
      | '*' :: '*' :: r2 =>
        let grp := r2.takeWhile (fun d => d ≠ '*')
        let after := r2.dropWhile (fun d => d ≠ '*')
        if grp ≠ [] ∧ after.take 2 = ['*', '*'] then
          let r3 := (after.drop 2).dropWhile isPyWS
          some (⟨grp⟩, ⟨(dropConnector r3).dropWhile isPyWS⟩)
        else none
      | _ => none
    else none

/-- Pattern-1 candidates (nodes.py lines 226-244): list-item bold tool
mentions; extra conditions: name has at most 4 words and contains no
exclusion keyword. -/
def p1Cands (lines : List String) :
    List (String × String × String × Bool) :=
  lines.filterMap fun line =>
    (p1Match (strip line)).map fun nd =>
      let name := strip nd.1
      let desc := if nd.2 = "" then "Tool from document" else strip nd.2
      (name, desc, "tool/library",
        decide ((splitWS name).length ≤ 4) &&
          !(excludeKeywords.any fun kw => containsSub (asciiLower name) kw))

/-- Pattern-2 candidates (nodes.py lines 246-267): headings naming an
algorithm (when not `novel`) or else a framework. -/
def p2Cands (lines : List String) :
    List (String × String × String × Bool) :=
  lines.filterMap fun line =>
    let stripped := strip line
    if startsWithStr stripped "#" then
      let heading := strip (lstripChars ['#'] stripped)
      let lower := asciiLower heading
      if containsSub lower "algorithm" && !containsSub lower "novel" then
        some (heading, "Core algorithm described in document", "algorithm",
          true)
      else if containsSub lower "framework" then
        some (heading, "Core framework described in document", "framework",
          true)
      else none
    else none

/-- Attempt of `Python\s*\d+(?:\.\d+)?\b` at the current position,
returning `(matched, rest)`; the optional fraction part is tried greedily
and given up when the trailing boundary fails, as the `re` engine does. -/
def pyVersionAt (l : List Char) : Option (List Char × List Char) :=
  match dropLit "Python" l with
  | none => none
  | some r1 =>
    let ws := r1.takeWhile isPyWS
    let r2 := r1.dropWhile isPyWS
    let ds := r2.takeWhile Char.isDigit
    let r3 := r2.dropWhile Char.isDigit
    if ds = [] then none
    else
      let withDot : Option (List Char × List Char) :=
        match r3 with
        | '.' :: r4 =>
          let ds2 := r4.takeWhile Char.isDigit
          let r5 := r4.dropWhile Char.isDigit
          if ds2 ≠ [] ∧ wordBoundaryAfter r5 then
            some ("Python".data ++ ws ++ ds ++ '.' :: ds2, r5)
          else none
        | _ => none
      match withDot with
      | some res => some res
      | none =>
        if wordBoundaryAfter r3 then some ("Python".data ++ ws ++ ds, r3)
        else none

/-- Attempt of the `KNOWN_LIBRARIES` alternation (with trailing `\b`) at
the current position, trying the names in list order. -/
def knownLibAt (l : List Char) : Option (List Char × List Char) :=
  KNOWN_LIBRARIES.findSome? fun lib =>
    match dropLit lib l with
    | some rest => if wordBoundaryAfter rest then some (lib.data, rest) else none
    | none => none

/-- One CamelCase segment `[A-Z][a-z]+`. -/
def segTok : List Char → Option (List Char × List Char)
  | [] => none
  | c :: cs =>
    if c.isUpper then
      let lows := cs.takeWhile Char.isLower
      if lows = [] then none
      else some (c :: lows, cs.dropWhile Char.isLower)
    else none

/-- Chains of 1, 2, 3, ... CamelCase segments from the current position,
in increasing length. -/
def camelChainAux : Nat → List Char → List Char →
    List (List Char × List Char)
  | 0, _, _ => []
  | fuel + 1, consumed, rest =>
    match segTok rest with
    | none => []
    | some sr =>
      (consumed ++ sr.1, sr.2) ::
        camelChainAux fuel (consumed ++ sr.1) sr.2

/-- Attempt of `[A-Z][a-z]+(?:[A-Z][a-z]+)+\b` at the current position:
at least two segments, greedy (longest chain first), backtracking on the
trailing boundary. -/
def camelAt (l : List Char) : Option (List Char × List Char) :=
  (((camelChainAux (l.length + 1) [] l).drop 1).reverse).findSome? fun cr =>
    if wordBoundaryAfter cr.2 then some cr else none

/-- Python `re.finditer` driver: scan left to right, attempt `patAt` at every
position whose left context is a word boundary, resume after each match's
end.  All three pattern-3 regexes start with `\b` followed by a word
character, so the left boundary is: start of text or preceding non-word
character. -/
def finditerAux (patAt : List Char → Option (List Char × List Char)) :
    Nat → Option Char → List Char → List String
  | 0, _, _ => []
  | _ + 1, _, [] => []
  | fuel + 1, prev, c :: cs =>
    let boundary := match prev with
      | none => true
      | some p => !isWordChar p
    match (if boundary then patAt (c :: cs) else none) with
    | some mr =>
      (⟨mr.1⟩ : String) ::
        finditerAux patAt fuel (mr.1.getLast?) mr.2
    | none => finditerAux patAt fuel (some c) cs

/-- All matches of a pattern-3 regex over the whole text, in order. -/
def finditerText (patAt : List Char → Option (List Char × List Char))
    (text : String) : List String :=
  finditerAux patAt (text.data.length + 1) none text.data

/-- Pattern-3 candidates (nodes.py lines 269-286): for each of the three
known-name regexes in order, every match over the whole text; extra
condition: the name has at most 3 words. -/
def p3Cands (text : String) :
    List (String × String × String × Bool) :=
  (finditerText pyVersionAt text ++ finditerText knownLibAt text ++
      finditerText camelAt text).map fun n =>
    (n, "Library/tool mentioned in document", "library",
      decide ((splitWS n).length ≤ 3))

/-- The shared dedup step (nodes.py: every append is guarded by
`name not in seen_names` and records the name in `seen_names`). -/
def stepTool (acc : List Tool × List String)
    (cand : String × String × String × Bool) : List Tool × List String :=
  if cand.2.2.2 ∧ cand.1 ∉ acc.2 then
    (acc.1 ++ [⟨cand.1, cand.2.1, cand.2.2.1⟩], acc.2 ++ [cand.1])
  else acc

/-- Embeds `ToolIdentificationAgent._fallback_tool_identification`
(nodes.py lines 210-288). -/
def fallback_tool_identification (text : String) : List Tool :=
  let lines := splitLines text
  (((p1Cands lines ++ p2Cands lines ++ p3Cands text).foldl stepTool
      ([], [])).1).take 10

/-! ## Useful-value stage
(`ValueExtractionAgent._fallback_value_extraction`, nodes.py 347-480)

The three name-resolution regexes share the multi-word-name subpattern
`multi_word_name = [A-Z][a-z]*(?:\s+[A-Z][a-z]*)*`.  The matchers below
enumerate the candidates of that subpattern in the `re` engine's
backtracking order (greedy: most words first); all other quantifiers in
these patterns are deterministic because their continuations can never
accept a character the quantifier gave up.
-/

/-- One `[A-Z][a-z]*` word of the multi-word-name subpattern. -/
def mwWordTok : List Char → Option (List Char × List Char)
  | [] => none
  | c :: cs =>
    if c.isUpper then
      some (c :: cs.takeWhile Char.isLower, cs.dropWhile Char.isLower)
    else none

/-- Extensions of a multi-word-name match by further `\s+[A-Z][a-z]*`
repetitions; candidates with more words come first (greedy order). -/
def mwChainAux : Nat → List Char → List Char →
    List (List Char × List Char)
  | 0, _, _ => []
  | fuel + 1, consumed, rest =>
    let ws := rest.takeWhile isPyWS
    let r1 := rest.dropWhile isPyWS
    (if ws ≠ [] then
      match mwWordTok r1 with
      | some wr => mwChainAux fuel (consumed ++ ws ++ wr.1) wr.2
      | none => []
    else []) ++ [(consumed, rest)]

/-- All candidates of `multi_word_name` at the current position, in the
`re` engine's preference order (longest first). -/
def mwChain (l : List Char) : List (List Char × List Char) :=
  match mwWordTok l with
  | some wr => mwChainAux (l.length + 1) wr.1 wr.2
  | none => []

/-- Matcher for one-or-more whitespace (at least one whitespace character), deterministic. -/
def wsPlus (l : List Char) : Option (List Char) :=
  let ws := l.takeWhile isPyWS
  if ws = [] then none else some (l.dropWhile isPyWS)

/-- Matcher for a parenthesized acronym of at least two capitals. -/
def acronymTok : List Char → Option (List Char)
  | '(' :: r =>
    let acr := r.takeWhile Char.isUpper
    if 2 ≤ acr.length ∧ (r.dropWhile Char.isUpper).take 1 = [')'] then
      some acr
    else none
  | _ => none

/-- Attempt of value pattern (a)
`(?:introduce|present|propose)\s+the\s+({mw})\s*\(([A-Z]{2,})\)` at the
current position, returning `(group 1, group 2)`. -/
def patAAt (l : List Char) : Option (List Char × List Char) :=
  (["introduce", "present", "propose"].findSome? fun v => dropLit v l).bind
    fun r1 =>
      (wsPlus r1).bind fun r2 =>
        (dropLit "the" r2).bind fun r3 =>
          (wsPlus r3).bind fun r4 =>
            (mwChain r4).findSome? fun cr =>
              (acronymTok (cr.2.dropWhile isPyWS)).map fun acr => (cr.1, acr)

/-- Value suffix words of pattern (b). -/
def valueSuffixesB : List String :=
  ["Algorithm", "Model", "Framework", "Architecture"]

/-- Value suffix words of pattern (c). -/
def valueSuffixesC : List String :=
  ["Algorithm", "Model", "Framework", "Architecture", "Method"]

/-- Attempt of value pattern (b)
`the\s+({mw}\s*(?:Algorithm|Model|Framework|Architecture))\s*\(([A-Z]{2,})\)`
at the current position. -/
def patBAt (l : List Char) : Option (List Char × List Char) :=
  (dropLit "the" l).bind fun r1 =>
    (wsPlus r1).bind fun r2 =>
      (mwChain r2).findSome? fun cr =>
        let ws2 := cr.2.takeWhile isPyWS
        let r3 := cr.2.dropWhile isPyWS
        (valueSuffixesB.findSome? fun suf =>
            (dropLit suf r3).bind fun r4 =>
              (acronymTok (r4.dropWhile isPyWS)).map fun acr =>
                (cr.1 ++ ws2 ++ suf.data, acr))

/-- The capture group of value pattern (c) starting at the multi-word
name: `({mw}\s*(?:Algorithm|Model|Framework|Architecture|Method))\b`. -/
def patCCore (l : List Char) : Option (List Char) :=
  (mwChain l).findSome? fun cr =>
    let ws2 := cr.2.takeWhile isPyWS
    let r3 := cr.2.dropWhile isPyWS
    valueSuffixesC.findSome? fun suf =>
      (dropLit suf r3).bind fun r4 =>
        if wordBoundaryAfter r4 then some (cr.1 ++ ws2 ++ suf.data) else none

/-- Attempt of value pattern (c) `(?:the\s+)?({mw}\s*(?:...|Method))\b` at
the current position: the optional `the\s+` is tried first (greedy). -/
def patCAt (l : List Char) : Option (List Char) :=
  match dropLit "the" l with
  | some r1 =>
    match wsPlus r1 with
    | some r2 =>
      match patCCore r2 with
      | some g => some g
      | none => patCCore l
    | none => patCCore l
  | none => patCCore l

/-- Python `re.search`: try the pattern at every position, leftmost match wins. -/
def searchAux (patAt : List Char → Option α) : List Char → Option α
  | [] => patAt []
  | c :: cs =>
    match patAt (c :: cs) with
    | some r => some r
    | none => searchAux patAt cs

/-- Pattern (a) over a line (nodes.py 366-375): on a match the resolved
name is `f"{group1.strip()} ({group2})"`. -/
def patA (line : String) : Option String :=
  (searchAux patAAt line.data).map fun g =>
    strip ⟨g.1⟩ ++ " (" ++ (⟨g.2⟩ : String) ++ ")"

/-- Pattern (b) over a line (nodes.py 377-386), same name composition. -/
def patB (line : String) : Option String :=
  (searchAux patBAt line.data).map fun g =>
    strip ⟨g.1⟩ ++ " (" ++ (⟨g.2⟩ : String) ++ ")"

/-- Pattern (c) over a line (nodes.py 388-397): the stripped capture. -/
def patC (line : String) : Option String :=
  (searchAux patCAt line.data).map fun g => strip ⟨g⟩

/-- The default placeholder name (nodes.py line 354). -/
def defaultValueName : String := "Extracted Method"

/-- The name-resolution loop over lines (nodes.py 364-397): per line,
pattern (a) is tried, then (b) — a match of either sets the name and
breaks the loop — then (c), which sets the name only when it is still the
placeholder and the match does not contain `novel`, without breaking. -/
def scanNames : List String → String → String
  | [], n => n
  | l :: ls, n =>
    match patA l with
    | some s => s
    | none =>
      match patB l with
      | some s => s
      | none =>
        scanNames ls
          (if n = defaultValueName then
            match patC l with
            | some p =>
              if containsSub (asciiLower p) "novel" then n else p
            | none => n
          else n)

/-- The heading fallback of name resolution (nodes.py 400-417), entered
only when the name is still the placeholder; returns `(name, type)` and
stops at the first heading that matches a branch. -/
def headingScan : List String → String × String → String × String
  | [], acc => acc
  | l :: ls, acc =>
    let stripped := strip l
    if startsWithStr stripped "#" then
      let heading := strip (lstripChars ['#'] stripped)
      let lower := asciiLower heading
      if containsSub lower "algorithm" && !containsSub lower "novel" then
        (heading, "algorithm")
      else if containsSub lower "model" then (heading, "model")
      else if containsSub lower "framework" then (heading, "framework")
      else headingScan ls acc
    else headingScan ls acc

/-- Type re-derivation from the resolved name (nodes.py 419-428). -/
def deriveType (name fallbackType : String) : String :=
  let lower := asciiLower name
  if containsSub lower "algorithm" then "algorithm"
  else if containsSub lower "model" then "model"
  else if containsSub lower "framework" then "framework"
  else if containsSub lower "architecture" then "architecture"
  else fallbackType

/-- Description keywords of the first description pass (nodes.py 437). -/
def descKeywords1 : List String :=
  ["introduce", "present", "propose", "describe", "works by"]

/-- Description keywords of the second description pass (nodes.py 445). -/
def descKeywords2 : List String :=
  ["this paper presents", "we present", "we propose", "our approach"]

/-- Embeds `ValueExtractionAgent._fallback_value_extraction`
(nodes.py lines 347-480). -/
def fallback_value_extraction (text understanding : String)
    (concepts : List String) (_theorems : List Thm) (_tools : List Tool) :
    UsefulValue :=
  let lines := splitLines text
  let name0 := scanNames lines defaultValueName
  let nt :=
    if name0 = defaultValueName then
      headingScan lines (defaultValueName, "algorithm")
    else (name0, "algorithm")
  let value_name := nt.1
  let value_type := deriveType value_name nt.2
  let d1 :=
    match splitWS value_name with
    | [] => ""
    | w :: _ =>
      let fw := asciiLower w
      match lines.find? (fun l =>
          let lo := asciiLower l
          containsSub lo fw &&
            descKeywords1.any fun kw => containsSub lo kw) with
      | some l => strip l
      | none => ""
  let d2 :=
    if d1 ≠ "" then d1
    else
      match lines.find? (fun l =>
          let lo := asciiLower l
          descKeywords2.any fun kw => containsSub lo kw) with
      | some l => strip l
      | none => ""
  let d3 :=
    if d2 ≠ "" then d2
    else if understanding ≠ "" then
      match ((splitChar '.' understanding).map strip).filter
          (fun s => s != "" && decide (20 < s.length)) with
      | s :: _ => s ++ "."
      | [] => ""
    else ""
  let value_description :=
    if d3 ≠ "" then d3
    else "A " ++ value_type ++ " for solving problems in this domain."
  let principles0 := (concepts.take 5).filter fun c => decide (3 < c.length)
  let principles :=
    if principles0 ≠ [] then principles0
    else
      ((lines.filterMap fun line =>
        let stripped := strip line
        if ["-", "*", "1.", "2.", "3."].any
            (fun m => startsWithStr stripped m) then
          let clean :=
            strip (lstripChars "-*0123456789.".data stripped)
          if clean ≠ "" ∧ clean.length < 100 then some clean else none
        else none).take 5)
  { name := value_name
    type := value_type
    description := value_description
    why_useful :=
      "This provides a reusable approach that can be applied to similar problems."
    key_principles :=
      if principles = [] then ["See document for detailed principles"]
      else principles
    prerequisites :=
      ["Understanding of the problem domain", "Basic programming skills"] }

/-! ## Understanding stage
(`DocumentUnderstandingAgent._fallback_understanding`, nodes.py 37-47)
-/

/-- Embeds `DocumentUnderstandingAgent._fallback_understanding`. -/
def fallback_understanding (text : String) : String :=
  "Document Analysis:\n- Total words: " ++ toString (wordCount text) ++
    "\n- Total lines: " ++ toString (splitLines text).length ++
    "\n- Document appears to contain technical/academic content\n" ++
    "- Structure includes multiple sections and paragraphs\n"

/-! ## Implementation-guide stage
(`ImplementationGuideAgent._fallback_implementation_guide`, nodes.py
553-615)
-/

/-- Python `', '.join`. -/
def joinComma (l : List String) : String :=
  joinSep ", " l

/-- Embeds `ImplementationGuideAgent._fallback_implementation_guide`. -/
def fallback_implementation_guide (_text : String)
    (useful_value : Option UsefulValue) (tools : List Tool)
    (_theorems : List Thm) : ImplGuide :=
  let value_name := match useful_value with
    | some u => u.name
    | none => "The Method"
  let value_type := match useful_value with
    | some u => u.type
    | none => "algorithm"
  let required_tools := (tools.take 5).map Tool.name
  { target := value_name
    target_type := value_type
    estimated_complexity := "Medium"
    steps :=
      [{ step := 1
         title := "Understand the Core Concepts"
         description :=
           "Study the fundamental principles behind " ++ value_name ++ "."
         details :=
           "Review the key principles and prerequisites listed in this document." },
       { step := 2
         title := "Set Up the Environment"
         description := "Install required tools and dependencies."
         details := "Required tools: " ++
           (if required_tools ≠ [] then joinComma required_tools
            else "See Tools section") },
       { step := 3
         title := "Implement Core Components"
         description :=
           "Build the main components of " ++ value_name ++ "."
         details :=
           "Follow the algorithm/architecture description in this document." },
       { step := 4
         title := "Integrate and Test"
         description := "Combine components and validate functionality."
         details :=
           "Use the theorems and validation criteria from the original work." },
       { step := 5
         title := "Optimize and Deploy"
         description := "Refine implementation for production use."
         details :=
           "Apply optimizations mentioned in the results section." }]
    required_tools :=
      if required_tools = [] then ["Programming language of choice"]
      else required_tools
    external_resources :=
      ["Original paper/document for detailed specifications",
       "Related implementations for reference"]
    validation_criteria :=
      ["Implementation matches described behavior",
       "Performance meets documented benchmarks"] }

/-! ## Pipeline orchestrator
(`SkillBuilderWorkflow`, workflow.py)

The compiled LangGraph graph runs its nodes strictly sequentially, merging
each node's returned partial update into the accumulated state; an
exception raised inside a node propagates out of `workflow.invoke`.  A
stage is modelled as a function from the accumulated state to either the
merged successor state or an error message.  `SkillBuilderWorkflow.run`
(workflow.py 49-77) builds the initial state, invokes the graph, and on an
exception returns the ORIGINAL initial state with only `error` set.
-/

/-- A workflow stage: the accumulated state to the merged successor state,
or the message of a raised exception. -/
abbrev Stage := AgentState → Except String AgentState

/-- The initial state of `run` (workflow.py 60-70): only the two input
fields are populated; `useful_value` and `implementation_guide` are not
even present as keys. -/
def initState (text path : String) : AgentState :=
  { document_text := text
    document_path := path
    understanding := none
    main_concepts := none
    theorems := none
    tools := none
    results := none
    useful_value := none
    implementation_guide := none
    skill_markdown := none
    error := none }

/-- Sequential node execution of the compiled graph: each stage receives
the accumulated state; a raising stage aborts the whole invocation. -/
def invokeGraph : List Stage → AgentState → Except String AgentState
  | [], st => .ok st
  | s :: rest, st =>
    match s st with
    | .ok st' => invokeGraph rest st'
    | .error e => .error e

/-- Embeds `SkillBuilderWorkflow.run` (workflow.py 49-77): on success the final
graph state is returned; on an exception the initial state is returned
with `error` set to the exception's message. -/
def runWorkflow (stages : List Stage) (text path : String) : AgentState :=
  match invokeGraph stages (initState text path) with
  | .ok final => final
  | .error e => { initState text path with error := some e }

/-- Embeds `DocumentUnderstandingAgent.__call__` with `llm = None`
(nodes.py 22-35): writes the `understanding` field. -/
def understandStage : Stage := fun st =>
  .ok { st with
    understanding := some (fallback_understanding st.document_text) }

/-- Embeds `ConceptExtractionAgent.__call__` with `llm = None` (nodes.py 76-91):
writes `main_concepts`, `theorems` and `results`. -/
def conceptStage : Stage := fun st =>
  let ctr := fallback_extraction st.document_text
  .ok { st with
    main_concepts := some ctr.1
    theorems := some ctr.2.1
    results := some ctr.2.2 }

/-- Embeds `ToolIdentificationAgent.__call__` with `llm = None`
(nodes.py 197-208): writes the `tools` field. -/
def toolStage : Stage := fun st =>
  .ok { st with
    tools := some (fallback_tool_identification st.document_text) }

/-- The node list wired by `SkillBuilderWorkflow._build_workflow`
(workflow.py 26-47): understand → extract_concepts → identify_tools.
`ValueExtractionAgent` and `ImplementationGuideAgent` are not added to
the graph. -/
def heuristicWorkflowStages : List Stage :=
  [understandStage, conceptStage, toolStage]

/-! ## Markdown renderer
(`SkillMarkdownGenerator`, generators/skill_generator.py)

`TEMPLATE.format(...)` concatenates the fixed template pieces with the
substituted values; substituted values are inserted verbatim (`str.format`
does not rescan them), so the result is the flat concatenation below.
The wall-clock timestamp is an input here.
-/

/-- Python `str.title()` (ASCII): uppercase each letter that follows a
non-letter, lowercase the other letters. -/
def titleL : Bool → List Char → List Char
  | _, [] => []
  | prevAlpha, c :: cs =>
    (if c.isAlpha then (if prevAlpha then c.toLower else c.toUpper) else c)
      :: titleL c.isAlpha cs

/-- Python `str.title()`. -/
def asciiTitle (s : String) : String :=
  ⟨titleL false s.data⟩

/-- Python `pathlib.Path(p).name`: the last non-empty `/`-separated component. -/
def lastComponent (p : String) : String :=
  ((splitChar '/' p).filter fun s => s ≠ "").getLastD ""

/-- Python `pathlib`'s suffix of a file name: from the last dot, provided that
dot is neither the first nor the last character. -/
def pathSuffixOf (name : String) : String :=
  match name.data.reverse.findIdx? (fun c => c = '.') with
  | none => ""
  | some k =>
    let i := name.data.length - 1 - k
    if 0 < i ∧ i < name.data.length - 1 then ⟨name.data.drop i⟩ else ""

/-- Python `pathlib.Path(p).stem`: the name with its suffix removed. -/
def pathStem (p : String) : String :=
  let nm := lastComponent p
  ⟨nm.data.take (nm.data.length - (pathSuffixOf nm).data.length)⟩

/-- Embeds `SkillMarkdownGenerator._generate_title` (skill_generator.py 183-191). -/
def generateTitle (document_path : String) : String :=
  if document_path ≠ "" ∧ document_path ≠ "Unknown" then
    asciiTitle (((pathStem document_path).replace "_" " ").replace "-" " ")
  else "Document Analysis"

/-- Embeds `SkillMarkdownGenerator._generate_overview` (skill_generator.py
193-210). -/
def genOverview (understanding : Option String) (concepts : List String) :
    String :=
  let parts :=
    (match understanding with
     | some u =>
       if u ≠ "" then
         let sentences := (((splitChar '.' u).take 3).map strip).filter
           fun s => s ≠ ""
         if sentences ≠ [] then [joinSep "." sentences ++ "."] else []
       else []
     | none => []) ++
    (if concepts ≠ [] then
      ["\n\nThis document covers " ++ toString concepts.length ++
        " main concepts and provides comprehensive analysis of the subject matter."]
    else [])
  if parts ≠ [] then joinSep "\n" parts else "No overview available."

/-- Embeds `_format_prerequisites` (skill_generator.py 212-222). -/
def formatPrerequisites (prerequisites : List String) : String :=
  if prerequisites = [] then
    "- Basic programming knowledge\n- Understanding of the problem domain"
  else joinSep "\n" (prerequisites.map fun p => "- " ++ p)

/-- Numbered bold items `"{i}. **{x}**"` used for principles and
concepts. -/
def numberBold : Nat → List String → List String
  | _, [] => []
  | i, x :: xs => (toString i ++ ". **" ++ x ++ "**") :: numberBold (i + 1) xs

/-- Embeds `_format_core_principles` (skill_generator.py 224-236). -/
def formatCorePrinciples (key_principles concepts : List String) : String :=
  let principles :=
    if key_principles ≠ [] then key_principles else concepts.take 5
  if principles = [] then
    "*Core principles will be derived from the implementation.*"
  else joinSep "\n" (numberBold 1 principles)

/-- Lines contributed by one implementation step
(skill_generator.py 254-265). -/
def stepLines (s : GuideStep) : List String :=
  ("### Step " ++ toString s.step ++ ": " ++ s.title ++ "\n") ::
    ((if s.description ≠ "" then ["**Goal:** " ++ s.description ++ "\n"]
      else []) ++
      (if s.details ≠ "" then [s.details ++ "\n"] else []))

/-- Embeds `_format_implementation_steps` (skill_generator.py 238-267). -/
def formatImplSteps (steps : List GuideStep) : String :=
  if steps = [] then
    "### Step 1: Understand the Core Concepts\nReview the core principles and prerequisites before implementing.\n\n### Step 2: Set Up Environment\nInstall required tools and dependencies.\n\n### Step 3: Implement Core Logic\nBuild the main components following the principles.\n\n### Step 4: Test and Validate\nVerify implementation against validation criteria."
  else joinSep "\n" (steps.map stepLines).flatten

/-- Lines contributed by one document tool (skill_generator.py 283-290). -/
def toolLines : Nat → List Tool → List String
  | _, [] => []
  | i, t :: ts =>
    ("**" ++ toString i ++ ". " ++ t.name ++ "** (" ++ t.type ++ ")") ::
      ("   " ++ t.description ++ "\n") :: toolLines (i + 1) ts

/-- Embeds `_format_tools` (skill_generator.py 269-295). -/
def formatTools (tools : List Tool) (required_tools : List String) :
    String :=
  let formatted :=
    (if required_tools ≠ [] then
      "### Required for Implementation\n" ::
        (required_tools.map fun t => "- **" ++ t ++ "**") ++ [""]
    else []) ++
    (if tools ≠ [] then "### Tools from Document\n" :: toolLines 1 tools
     else [])
  if formatted = [] then
    "*No specific tools identified. Use appropriate tools for your implementation language.*"
  else joinSep "\n" formatted

/-- Embeds `_format_external_resources` (skill_generator.py 297-307). -/
def formatExternalResources (resources : List String) : String :=
  if resources = [] then
    "- Original paper/document for detailed specifications\n- Related implementations for reference"
  else joinSep "\n" (resources.map fun r => "- " ++ r)

/-- Plain numbered items `"{i}. {x}"`. -/
def numberPlain : Nat → List String → List String
  | _, [] => []
  | i, x :: xs => (toString i ++ ". " ++ x) :: numberPlain (i + 1) xs

/-- Embeds `_format_validation_criteria` (skill_generator.py 309-319). -/
def formatValidationCriteria (criteria : List String) : String :=
  if criteria = [] then
    "- Implementation produces expected outputs\n- Performance matches documented benchmarks\n- All core features are functional"
  else joinSep "\n" (numberPlain 1 criteria)

/-- Embeds `_format_concepts` (skill_generator.py 321-331). -/
def formatConcepts (concepts : List String) : String :=
  if concepts = [] then "*No additional concepts extracted.*"
  else joinSep "\n" (numberBold 1 concepts)

/-- Lines contributed by one theorem (skill_generator.py 339-347). -/
def thmLines : Nat → List Thm → List String
  | _, [] => []
  | i, t :: ts =>
    ("### " ++ toString i ++ ". " ++ t.name ++ "\n") ::
      ("**Type:** " ++ t.type ++ "\n") ::
        ("**Description:** " ++ t.description ++ "\n") :: thmLines (i + 1) ts

/-- Embeds `_format_theorems` (skill_generator.py 333-349). -/
def formatTheorems (theorems : List Thm) : String :=
  if theorems = [] then "*No theorems or propositions found.*"
  else joinSep "\n" (thmLines 1 theorems)

/-- Lines contributed by one result (skill_generator.py 357-364). -/
def resLines : Nat → List Res → List String
  | _, [] => []
  | i, r :: rs =>
    ("### Result " ++ toString i ++ "\n") ::
      ("**Type:** " ++ r.type ++ "\n") ::
        ("**Finding:** " ++ r.description ++ "\n") :: resLines (i + 1) rs

/-- Embeds `_format_results` (skill_generator.py 351-366). -/
def formatResults (results : List Res) : String :=
  if results = [] then "*No specific results documented.*"
  else joinSep "\n" (resLines 1 results)

/-- The filled `TEMPLATE` (skill_generator.py 11-109, 158-175): fixed
template pieces interleaved with the substituted values, flattened by
`str.format`. -/
def renderMarkdown (document_path : String) (understanding : Option String)
    (concepts : List String) (theorems : List Thm) (tools : List Tool)
    (results : List Res) (useful_value : Option UsefulValue)
    (implementation_guide : Option ImplGuide) (timestamp : String) :
    String :=
  let skill_name := match useful_value with
    | some u => u.name
    | none => generateTitle document_path
  let skill_type := match useful_value with
    | some u => u.type
    | none => "skill"
  let what := match useful_value with
    | some u => u.description
    | none => genOverview understanding concepts
  let why := match useful_value with
    | some u => u.why_useful
    | none =>
      "This provides reusable knowledge that can be applied to solve problems in this domain."
  let key_principles := match useful_value with
    | some u => u.key_principles
    | none => []
  let prerequisites := match useful_value with
    | some u => u.prerequisites
    | none => []
  let impl_steps := match implementation_guide with
    | some g => g.steps
    | none => []
  let required_tools := match implementation_guide with
    | some g => g.required_tools
    | none => []
  let external_resources := match implementation_guide with
    | some g => g.external_resources
    | none => []
  let validation_criteria := match implementation_guide with
    | some g => g.validation_criteria
    | none => []
  concatAll
    ["# Skill: ", skill_name,
     "\n\n**Type:** ", asciiTitle skill_type,
     "  \n**Generated from:** ", document_path,
     "  \n**Generated on:** ", timestamp,
     "\n\n---\n\n## What You Will Build\n\n", what,
     "\n\n---\n\n## Why This Is Useful\n\n", why,
     "\n\n---\n\n## Prerequisites\n\n", formatPrerequisites prerequisites,
     "\n\n---\n\n## Core Principles\n\n",
     formatCorePrinciples key_principles concepts,
     "\n\n---\n\n## Implementation Guide\n\n", formatImplSteps impl_steps,
     "\n\n---\n\n## Required Tools and Resources\n\n",
     formatTools tools required_tools,
     "\n\n---\n\n## External Resources\n\n",
     formatExternalResources external_resources,
     "\n\n---\n\n## Validation Criteria\n\n",
     formatValidationCriteria validation_criteria,
     "\n\n---\n\n## Supporting Concepts\n\n", formatConcepts concepts,
     "\n\n---\n\n## Theoretical Foundation\n\n", formatTheorems theorems,
     "\n\n---\n\n## Expected Results\n\n", formatResults results,
     "\n\n---\n\n## Quick Start\n\nTo implement this skill:\n\n1. Review the **Prerequisites** to ensure you have the necessary background\n2. Study the **Core Principles** to understand the fundamental concepts\n3. Follow the **Implementation Guide** step by step\n4. Use the **Required Tools** as specified\n5. Validate your implementation against the **Validation Criteria**\n\n---\n\n## Notes for AI Systems\n\nThis skill document is designed to be actionable and self-contained:\n\n- Focus on the **Implementation Guide** for step-by-step instructions\n- Use **Core Principles** to understand the underlying theory\n- Reference **External Resources** for additional context if needed\n- The goal is to BUILD and IMPLEMENT, not just understand\n\n---\n\n*End of Skill Document*\n"]

/-- Embeds `SkillMarkdownGenerator.generate` (skill_generator.py 111-181) as a
pure function of the state (plus the timestamp): each field is read with
`state.get(key, default)`, where an absent/`None` entry yields the
default. -/
def generate (st : AgentState) (timestamp : String) : String :=
  renderMarkdown st.document_path st.understanding
    (st.main_concepts.getD []) (st.theorems.getD []) (st.tools.getD [])
    (st.results.getD []) st.useful_value st.implementation_guide timestamp

/-- One `state.get` access: returns the read value and the state as left
by the access (reads do not modify the mapping). -/
def getField (st : AgentState) (f : AgentState → α) : α × AgentState :=
  (f st, st)

/-- Embeds `SkillMarkdownGenerator.generate` with its effects explicit: the state
accesses are threaded (skill_generator.py 124-131 perform only `get`s, no
key is written), and the optional `Path(output_path).write_text` call
(line 179) appends to a file-system log instead of touching the state. -/
def generateTracked (st0 : AgentState)
    (fileSys : List (String × String)) (outputPath : Option String)
    (timestamp : String) :
    String × AgentState × List (String × String) :=
  let r1 := getField st0 AgentState.document_path
  let r2 := getField r1.2 AgentState.understanding
  let r3 := getField r2.2 fun s => s.main_concepts.getD []
  let r4 := getField r3.2 fun s => s.theorems.getD []
  let r5 := getField r4.2 fun s => s.tools.getD []
  let r6 := getField r5.2 fun s => s.results.getD []
  let r7 := getField r6.2 AgentState.useful_value
  let r8 := getField r7.2 AgentState.implementation_guide
  let md := renderMarkdown r1.1 r2.1 r3.1 r4.1 r5.1 r6.1 r7.1 r8.1
    timestamp
  let fileSys' := match outputPath with
    | some p => (p, md) :: fileSys
    | none => fileSys
  (md, r8.2, fileSys')

/-! ## Multi-format document loader
(`MultiFormatLoader.load`, loaders/document_loader.py 106-148)

The file system is abstracted by an existence predicate and a reader
function (the format-specific readers wrap external parsing libraries and
may themselves fail, e.g. on a missing optional dependency; such failures
are a third error kind, distinct from the loader's own two).
-/

/-- The error kinds raised by `MultiFormatLoader.load`:
`FileNotFoundError`, `ValueError` for an unsupported format, and any
failure escaping a format-specific reader. -/
inductive LoadError
  | notFound (path : String)
  | unsupportedFormat (suffix : String)
  | readerFailure (msg : String)
deriving DecidableEq

/-- The keys of `MultiFormatLoader.LOADERS`
(document_loader.py 109-116). -/
def loaderSuffixes : List String :=
  [".pdf", ".docx", ".pptx", ".md", ".markdown", ".txt"]

/-- Embeds `MultiFormatLoader.load` (document_loader.py 118-148): the existence
check comes first, then the suffix lookup, then the dispatched reader. -/
def multiFormatLoad (fileExists : String → Bool)
    (readFile : String → String → Except String String)
    (filePath : String) : Except LoadError String :=
  if !fileExists filePath then .error (.notFound filePath)
  else
    let suffix := asciiLower (pathSuffixOf (lastComponent filePath))
    if !loaderSuffixes.contains suffix then
      .error (.unsupportedFormat suffix)
    else
      match readFile suffix filePath with
      | .ok text => .ok text
      | .error m => .error (.readerFailure m)

/-! ## Auxiliary definitions for the statements -/

/-- A stage that completes and records a partial result. -/
def stageWritesUnderstanding : Stage := fun st =>
  .ok { st with understanding := some "partial result" }

/-- A stage that raises. -/
def stageBoom : Stage := fun _ => .error "boom"

/-- The first line whose pattern (a) or (b) match resolves a name, with
(a) tried before (b) on each line — the names that break the
name-resolution loop. -/
def abFirst (lines : List String) : Option String :=
  lines.findSome? fun l => (patA l).orElse fun _ => patB l

/-- The first pattern (c) match that actually changes the name: matches
containing `novel` are skipped by the loop's guard, and a match equal to
the placeholder leaves the name unchanged. -/
def cFirst (lines : List String) : Option String :=
  lines.findSome? fun l =>
    match patC l with
    | some p =>
      if containsSub (asciiLower p) "novel" ∨ p = defaultValueName then none
      else some p
    | none => none

/-- Substring containment (`a` occurs contiguously inside `b`). -/
def SubStr (a b : String) : Prop :=
  ∃ p q, b.data = p ++ a.data ++ q

/-- A sample final pipeline state used to instantiate the renderer
round-trip theorem. -/
def sampleState : AgentState :=
  { document_text := "doc"
    document_path := "paper.md"
    understanding := some "An analysis."
    main_concepts := some ["Alpha Beta"]
    theorems := some [{ name := "Central Limit"
                        description := "Extracted from document"
                        type := "theorem" }]
    tools := some [{ name := "NumPy"
                     description := "Library/tool mentioned in document"
                     type := "library" }]
    results := some [{ description := "40% improvement"
                       type := "empirical result" }]
    useful_value := none
    implementation_guide := none
    skill_markdown := none
    error := none }

/-! ## Theorems -/

/-- One `stepTool` application preserves the dedup invariant: the emitted
tool names are pairwise distinct and each is recorded in the seen set. -/
theorem stepTool_inv (acc : List Tool × List String)
    (cand : String × String × String × Bool)
    (h₁ : (acc.1.map Tool.name).Nodup)
    (h₂ : ∀ t ∈ acc.1, t.name ∈ acc.2) :
    ((stepTool acc cand).1.map Tool.name).Nodup ∧
      ∀ t ∈ (stepTool acc cand).1, t.name ∈ (stepTool acc cand).2 := by
  unfold stepTool
  by_cases hc : cand.2.2.2 ∧ cand.1 ∉ acc.2
  · simp only [if_pos hc]
    constructor
    · rw [List.map_append, List.map_singleton]
      refine List.Nodup.append h₁ (List.nodup_singleton _) ?_
      intro a ha hb
      rcases List.mem_map.mp ha with ⟨t, ht, rfl⟩
      have hb' : t.name = cand.1 := List.mem_singleton.mp hb
      exact hc.2 (hb' ▸ h₂ t ht)
    · intro t ht
      rcases List.mem_append.mp ht with h | h
      · exact List.mem_append_left _ (h₂ t h)
      · rcases List.mem_singleton.mp h with rfl
        exact List.mem_append_right _ (List.mem_singleton_self _)
  · simp only [if_neg hc]
    exact ⟨h₁, h₂⟩

/-- The candidate fold preserves the dedup invariant. -/
theorem toolFold_inv :
    ∀ (cands : List (String × String × String × Bool))
      (acc : List Tool × List String),
      (acc.1.map Tool.name).Nodup → (∀ t ∈ acc.1, t.name ∈ acc.2) →
      ((cands.foldl stepTool acc).1.map Tool.name).Nodup ∧
        ∀ t ∈ (cands.foldl stepTool acc).1,
          t.name ∈ (cands.foldl stepTool acc).2 := by
  intro cands
  induction cands with
  | nil => intro acc h₁ h₂; exact ⟨h₁, h₂⟩
  | cons c cs ih =>
    intro acc h₁ h₂
    have h := stepTool_inv acc c h₁ h₂
    exact ih (stepTool acc c) h.1 h.2

/-- C6: for every input text, the tools sequence produced by the heuristic
tool-identification stage never contains two entries with the same name
string: all three pattern families are folded through one shared
seen-names set, so the first occurrence of a name wins and later
candidates with the same name are dropped regardless of family. -/
theorem tools_names_nodup (text : String) :
    ((fallback_tool_identification text).map Tool.name).Nodup := by
  unfold fallback_tool_identification
  have h := toolFold_inv
    (p1Cands (splitLines text) ++ p2Cands (splitLines text) ++ p3Cands text)
    ([], []) (by simp) (by simp)
  show ((List.take 10 _).map Tool.name).Nodup
  rw [List.map_take]
  exact List.Nodup.sublist (List.take_sublist 10 _) h.1

/-- C5: for every input text, the heuristic extraction stages return
sequences no longer than their documented caps: at most 10 concepts, 5
theorems, 5 results and 10 tools. -/
theorem stage_caps (text : String) :
    (fallback_extraction text).1.length ≤ 10 ∧
      (fallback_extraction text).2.1.length ≤ 5 ∧
      (fallback_extraction text).2.2.length ≤ 5 ∧
      (fallback_tool_identification text).length ≤ 10 := by
  unfold fallback_extraction fallback_tool_identification
  refine ⟨?_, ?_, ?_, ?_⟩ <;>
    simp [List.length_take]

/-- C7: on the empty document string every heuristic stage returns its
empty-sequence or placeholder output (and, all stage embeddings being
total functions, none of them raises): the concept stage returns three
empty sequences, the tool stage an empty tools sequence, the
understanding and useful-value stages their placeholder values, and the
implementation-guide stage its fixed fallback plan. -/
theorem empty_document_stages :
    fallback_extraction "" = ([], [], []) ∧
      fallback_tool_identification "" = [] ∧
      fallback_understanding "" =
        "Document Analysis:\n- Total words: 0\n- Total lines: 1\n- Document appears to contain technical/academic content\n- Structure includes multiple sections and paragraphs\n" ∧
      fallback_value_extraction "" "" [] [] [] =
        { name := "Extracted Method"
          type := "algorithm"
          description := "A algorithm for solving problems in this domain."
          why_useful :=
            "This provides a reusable approach that can be applied to similar problems."
          key_principles := ["See document for detailed principles"]
          prerequisites :=
            ["Understanding of the problem domain",
             "Basic programming skills"] } ∧
      (fallback_implementation_guide "" none [] []).required_tools =
        ["Programming language of choice"] ∧
      (fallback_implementation_guide "" none [] []).target = "The Method" :=
  ⟨rfl, rfl, rfl, rfl, rfl, rfl⟩

/-- C3 counterexample: the line `"Proposition 1: 40% improvement"` is
classified as a theorem line (its lowercased form contains
`proposition`), yet the very same line also appears as an entry of the
results sequence, because the results exclusion only tests for `theorem`
and `lemma`. -/
theorem proposition_line_in_results :
    isTheoremLine "Proposition 1: 40% improvement" = true ∧
      (fallback_extraction "Proposition 1: 40% improvement").2.1 =
        [{ name := "Proposition 1: 40% improvement"
           description := "Extracted from document"
           type := "theorem" }] ∧
      (fallback_extraction "Proposition 1: 40% improvement").2.2 =
        [{ description := "Proposition 1: 40% improvement"
           type := "empirical result" }] :=
  ⟨rfl, rfl, rfl⟩

/-- C3 (amended): every entry of the results sequence comes from a line
that matched the result pattern and whose lowercased form contains
neither `theorem` nor `lemma`; lines classified as theorems solely via
`proposition` are NOT excluded from the results. -/
theorem results_from_non_theorem_lemma_lines (text : String) :
    ∀ r ∈ (fallback_extraction text).2.2,
      ∃ l, l ∈ splitLines text ∧ isResultLine l = true ∧
        resultExcluded l = false ∧ r = mkResult l := by
  intro r hr
  simp only [fallback_extraction] at hr
  have hr' := List.take_subset _ _ hr
  rcases List.mem_map.mp hr' with ⟨l, hl, rfl⟩
  rcases List.mem_filter.mp hl with ⟨hmem, hcond⟩
  simp only [Bool.and_eq_true, Bool.not_eq_true'] at hcond
  exact ⟨l, hmem, hcond.1, hcond.2, rfl⟩

/-- Witness for the amended C3 theorem at the concrete text
`"Result: 40% improvement"`. -/
theorem results_from_non_theorem_lemma_lines_witness :
    ({ description := "Result: 40% improvement"
       type := "empirical result" } : Res) ∈
        (fallback_extraction "Result: 40% improvement").2.2 ∧
      ∃ l, l ∈ splitLines "Result: 40% improvement" ∧
        isResultLine l = true ∧ resultExcluded l = false ∧
        ({ description := "Result: 40% improvement"
           type := "empirical result" } : Res) = mkResult l :=
  ⟨by decide,
    results_from_non_theorem_lemma_lines "Result: 40% improvement" _
      (by decide)⟩

/-- Appending stage lists runs the first list and, on success, continues
with the second from the accumulated state. -/
theorem invokeGraph_append (l₁ l₂ : List Stage) (st : AgentState) :
    invokeGraph (l₁ ++ l₂) st =
      match invokeGraph l₁ st with
      | .ok st' => invokeGraph l₂ st'
      | .error e => .error e := by
  induction l₁ generalizing st with
  | nil => simp [invokeGraph]
  | cons s rest ih =>
    simp only [List.cons_append, invokeGraph]
    cases s st <;> simp [ih]

/-- C1 (amended): if a stage raises after a prefix of stages completed,
`run` returns a state with `error` set to the failure's message and no
later stage executes — but the returned state is the INITIAL state plus
the error field, so the fields written by the completed prefix are
discarded, not preserved. -/
theorem run_stage_failure (pre post : List Stage) (s : Stage)
    (text path : String) (st : AgentState) (e : String)
    (h₁ : invokeGraph pre (initState text path) = .ok st)
    (h₂ : s st = .error e) :
    runWorkflow (pre ++ s :: post) text path =
      { initState text path with error := some e } := by
  unfold runWorkflow
  rw [invokeGraph_append, h₁]
  simp [invokeGraph, h₂]

/-- C1 counterexample: the first stage completes and writes the
`understanding` field, the second stage raises; the state returned by
`run` has `error` set, but the `understanding` field written by the
completed stage is absent — partial results are discarded, refuting the
preservation part of the claim. -/
theorem run_stage_failure_counterexample :
    invokeGraph [stageWritesUnderstanding] (initState "doc" "p") =
      .ok { initState "doc" "p" with
        understanding := some "partial result" } ∧
      stageBoom { initState "doc" "p" with
        understanding := some "partial result" } = .error "boom" ∧
      (runWorkflow [stageWritesUnderstanding, stageBoom] "doc" "p").error =
        some "boom" ∧
      (runWorkflow [stageWritesUnderstanding, stageBoom] "doc"
        "p").understanding = none :=
  ⟨rfl, rfl, rfl, rfl⟩

/-- Witness for the amended C1 theorem at a concrete two-stage run. -/
theorem run_stage_failure_witness :
    runWorkflow [stageWritesUnderstanding, stageBoom] "doc" "p" =
      { initState "doc" "p" with error := some "boom" } :=
  run_stage_failure [stageWritesUnderstanding] [] stageBoom "doc" "p"
    { initState "doc" "p" with understanding := some "partial result" }
    "boom" rfl rfl

/-- C2: for every `document_text` and `document_path`, the state returned
by the workflow run has no `useful_value` and no `implementation_guide`
entry: the compiled graph wires only the understanding,
concept-extraction and tool-identification nodes, so the value-extraction
and implementation-guide agents never execute. -/
theorem run_no_value_fields (text path : String) :
    (runWorkflow heuristicWorkflowStages text path).useful_value = none ∧
      (runWorkflow heuristicWorkflowStages text path).implementation_guide =
        none :=
  ⟨rfl, rfl⟩

/-- C10: the renderer never modifies the pipeline state it is given: the
state after `generate` returns equals the state before the call (the
source performs only `state.get` reads), also when an output path is
supplied and the markdown is written to the file system. -/
theorem generate_preserves_state (st : AgentState)
    (fileSys : List (String × String)) (outputPath : Option String)
    (timestamp : String) :
    (generateTracked st fileSys outputPath timestamp).2.1 = st := by
  cases outputPath <;> rfl

/-- C9: the loader fails with the not-found kind exactly when the path
does not exist, and with the unsupported-format kind exactly when the
path exists but its lowercased extension has no registered reader; the
first equivalence holds regardless of the extension, which is the
existence-check-before-extension-check order. -/
theorem load_error_kinds (fileExists : String → Bool)
    (readFile : String → String → Except String String)
    (filePath : String) :
    (multiFormatLoad fileExists readFile filePath =
        .error (.notFound filePath) ↔ fileExists filePath = false) ∧
      (multiFormatLoad fileExists readFile filePath =
          .error (.unsupportedFormat
            (asciiLower (pathSuffixOf (lastComponent filePath)))) ↔
        fileExists filePath = true ∧
          asciiLower (pathSuffixOf (lastComponent filePath)) ∉
            loaderSuffixes) := by
  unfold multiFormatLoad
  by_cases hex : fileExists filePath
  · by_cases hsuf : asciiLower (pathSuffixOf (lastComponent filePath)) ∈
      loaderSuffixes
    · cases hrd : readFile (asciiLower (pathSuffixOf (lastComponent filePath)))
        filePath <;> simp [hex, hsuf, hrd]
    · simp [hex, hsuf]
  · simp [hex]

/-- Witness for the loader error-kind theorem at concrete file systems
and paths: a missing `a.md` is reported as not found, an existing
`b.xyz` as an unsupported format. -/
theorem load_error_kinds_witness :
    multiFormatLoad (fun _ => false) (fun _ _ => .ok "text") "a.md" =
      .error (.notFound "a.md") ∧
      multiFormatLoad (fun _ => true) (fun _ _ => .ok "text") "b.xyz" =
        .error (.unsupportedFormat ".xyz") :=
  ⟨(load_error_kinds (fun _ => false) (fun _ _ => .ok "text") "a.md").1.mpr
      rfl,
    (load_error_kinds (fun _ => true) (fun _ _ => .ok "text")
        "b.xyz").2.mpr ⟨rfl, by decide⟩⟩

/-- Once the name differs from the placeholder, pattern (c) is disabled
and only a later (a)/(b) match can change the result. -/
theorem scanNames_of_ne (lines : List String) :
    ∀ n, n ≠ defaultValueName →
      scanNames lines n = (abFirst lines).getD n := by
  induction lines with
  | nil => intro n _; simp [scanNames, abFirst]
  | cons l ls ih =>
    intro n hn
    unfold scanNames abFirst
    rw [List.findSome?_cons]
    cases hA : patA l with
    | some s => simp [hA, Option.orElse]
    | none =>
      cases hB : patB l with
      | some s => simp [hA, hB, Option.orElse]
      | none =>
        simp only [hA, hB, Option.orElse, if_neg hn]
        exact ih n hn

/-- C4 (amended): the name-resolution loop tries patterns (a), (b), (c)
in that order on each line, scanning top to bottom, but only a match of
(a) or (b) halts the scan.  The resolved name is therefore the value of
the FIRST line matching (a) or (b) — even when an earlier line already
matched (c) — and only if no line matches (a) or (b) does the first
effective (c) match win, the placeholder being the final fallback.  In
particular a name set by pattern (c) IS replaced by a later line's
(a)/(b) match. -/
theorem scanNames_priority (lines : List String) :
    scanNames lines defaultValueName =
      (abFirst lines).getD ((cFirst lines).getD defaultValueName) := by
  induction lines with
  | nil => simp [scanNames, abFirst, cFirst]
  | cons l ls ih =>
    unfold scanNames abFirst cFirst
    rw [List.findSome?_cons, List.findSome?_cons]
    cases hA : patA l with
    | some s => simp [hA, Option.orElse]
    | none =>
      cases hB : patB l with
      | some s => simp [hA, hB, Option.orElse]
      | none =>
        simp only [hA, hB, Option.orElse, if_pos rfl]
        cases hC : patC l with
        | none => simpa [hC, abFirst, cFirst] using ih
        | some p =>
          by_cases hnov : containsSub (asciiLower p) "novel"
          · simpa [hC, hnov, abFirst, cFirst] using ih
          · by_cases hdef : p = defaultValueName
            · subst hdef
              simpa [hC, hnov, abFirst, cFirst] using ih
            · rw [Bool.not_eq_true] at hnov
              simp [hnov, hdef, scanNames_of_ne ls p hdef, abFirst,
                Option.orElse]

/-- C4 counterexample: on the first line only pattern (c) matches and
sets the name to `"Gradient Descent Method"`; the second, later line
matches pattern (a), and the stage resolves the name to
`"Fast Solver (FS)"` — the name set by pattern (c) was replaced by a
later line, refuting first-match-wins as claimed. -/
theorem valueName_replaced_counterexample :
    patA "the Gradient Descent Method" = none ∧
      patB "the Gradient Descent Method" = none ∧
      patC "the Gradient Descent Method" = some "Gradient Descent Method" ∧
      patA "We introduce the Fast Solver (FS) today" =
        some "Fast Solver (FS)" ∧
      (fallback_value_extraction
        "the Gradient Descent Method\nWe introduce the Fast Solver (FS) today"
        "" [] [] []).name = "Fast Solver (FS)" :=
  ⟨rfl, rfl, rfl, rfl, rfl⟩

/-- String data distributes over append. -/
theorem data_append (a b : String) : (a ++ b).data = a.data ++ b.data := by
  cases a; cases b; rfl

/-- Substring containment is reflexive. -/
theorem substr_refl (a : String) : SubStr a a :=
  ⟨[], [], by simp⟩

/-- Substring containment extends along a right append. -/
theorem substr_append_left {a b : String} (c : String) (h : SubStr a b) :
    SubStr a (b ++ c) := by
  rcases h with ⟨p, q, hpq⟩
  exact ⟨p, q ++ c.data, by simp [data_append, hpq]⟩

/-- Substring containment extends along a left append. -/
theorem substr_append_right {a c : String} (b : String) (h : SubStr a c) :
    SubStr a (b ++ c) := by
  rcases h with ⟨p, q, hpq⟩
  exact ⟨b.data ++ p, q, by simp [data_append, hpq]⟩

/-- Substring containment is transitive. -/
theorem substr_trans {a b c : String} (h₁ : SubStr a b) (h₂ : SubStr b c) :
    SubStr a c := by
  rcases h₁ with ⟨p, q, hpq⟩
  rcases h₂ with ⟨p', q', hpq'⟩
  exact ⟨p' ++ p, q ++ q', by simp [hpq', hpq]⟩

/-- A string occurs inside a sandwich of appends. -/
theorem substr_sandwich (x a y : String) : SubStr a (x ++ a ++ y) :=
  substr_append_left y (substr_append_right x (substr_refl a))

/-- Every member of a string list occurs inside its concatenation. -/
theorem substr_concatAll {x : String} :
    ∀ {l : List String}, x ∈ l → SubStr x (concatAll l) := by
  intro l
  induction l with
  | nil => intro h; cases h
  | cons a rest ih =>
    intro h
    rcases List.mem_cons.mp h with rfl | h
    · exact substr_append_left _ (substr_refl x)
    · exact substr_append_right _ (ih h)

/-- Anything contained in a member of a list is contained in the list
joined by a separator. -/
theorem substr_joinSep {c : String} (sep : String) :
    ∀ {l : List String} {e : String}, e ∈ l → SubStr c e →
      SubStr c (joinSep sep l) := by
  intro l
  induction l with
  | nil => intro e h; cases h
  | cons a rest ih =>
    intro e h hc
    rcases List.mem_cons.mp h with rfl | h
    · cases rest with
      | nil => exact hc
      | cons b rs => exact substr_append_left _ (substr_append_left _ hc)
    · have hne : rest ≠ [] := by
        intro hrest; rw [hrest] at h; cases h
      cases rest with
      | nil => exact absurd rfl hne
      | cons b rs => exact substr_append_right _ (ih h hc)

/-- Every listed string occurs inside some line of `numberBold`. -/
theorem numberBold_mem {c : String} :
    ∀ {cs : List String}, c ∈ cs → ∀ k,
      ∃ e ∈ numberBold k cs, SubStr c e := by
  intro cs
  induction cs with
  | nil => intro h; cases h
  | cons a rest ih =>
    intro h k
    rcases List.mem_cons.mp h with rfl | h
    · exact ⟨toString k ++ ". **" ++ c ++ "**", List.mem_cons_self _ _,
        substr_sandwich _ _ _⟩
    · rcases ih h (k + 1) with ⟨e, he, hc⟩
      exact ⟨e, List.mem_cons_of_mem _ he, hc⟩

/-- Every theorem's name occurs inside some line of `thmLines`. -/
theorem thmLines_mem {t : Thm} :
    ∀ {ts : List Thm}, t ∈ ts → ∀ k,
      ∃ e ∈ thmLines k ts, SubStr t.name e := by
  intro ts
  induction ts with
  | nil => intro h; cases h
  | cons a rest ih =>
    intro h k
    rcases List.mem_cons.mp h with rfl | h
    · exact ⟨"### " ++ toString k ++ ". " ++ t.name ++ "\n",
        List.mem_cons_self _ _, substr_sandwich _ _ _⟩
    · rcases ih h (k + 1) with ⟨e, he, hc⟩
      exact ⟨e, List.mem_cons_of_mem _ (List.mem_cons_of_mem _
        (List.mem_cons_of_mem _ he)), hc⟩

/-- Every tool's name occurs inside some line of `toolLines`. -/
theorem toolLines_mem {t : Tool} :
    ∀ {ts : List Tool}, t ∈ ts → ∀ k,
      ∃ e ∈ toolLines k ts, SubStr t.name e := by
  intro ts
  induction ts with
  | nil => intro h; cases h
  | cons a rest ih =>
    intro h k
    rcases List.mem_cons.mp h with rfl | h
    · refine ⟨"**" ++ toString k ++ ". " ++ t.name ++ "** (" ++ t.type
        ++ ")", List.mem_cons_self _ _, ?_⟩
      have : SubStr t.name (("**" ++ toString k ++ ". ") ++ t.name ++
          ("** (" ++ t.type ++ ")")) := substr_sandwich _ _ _
      simpa [String.append_assoc] using this
    · rcases ih h (k + 1) with ⟨e, he, hc⟩
      exact ⟨e, List.mem_cons_of_mem _ (List.mem_cons_of_mem _ he), hc⟩

/-- Every concept occurs literally in the concepts section. -/
theorem substr_formatConcepts {c : String} {cs : List String}
    (h : c ∈ cs) : SubStr c (formatConcepts cs) := by
  unfold formatConcepts
  have hne : cs ≠ [] := by intro he; rw [he] at h; cases h
  rw [if_neg hne]
  rcases numberBold_mem h 1 with ⟨e, he, hc⟩
  exact substr_joinSep "\n" he hc

/-- Every theorem name occurs literally in the theorems section. -/
theorem substr_formatTheorems {t : Thm} {ts : List Thm} (h : t ∈ ts) :
    SubStr t.name (formatTheorems ts) := by
  unfold formatTheorems
  have hne : ts ≠ [] := by intro he; rw [he] at h; cases h
  rw [if_neg hne]
  rcases thmLines_mem h 1 with ⟨e, he, hc⟩
  exact substr_joinSep "\n" he hc

/-- Every tool name occurs literally in the tools section. -/
theorem substr_formatTools {t : Tool} {ts : List Tool}
    (req : List String) (h : t ∈ ts) :
    SubStr t.name (formatTools ts req) := by
  unfold formatTools
  have hne : ts ≠ [] := by intro he; rw [he] at h; cases h
  rcases toolLines_mem h 1 with ⟨e, he, hc⟩
  have hmem : e ∈ (if req ≠ [] then
      "### Required for Implementation\n" ::
        (req.map fun t => "- **" ++ t ++ "**") ++ [""]
      else []) ++
      (if ts ≠ [] then "### Tools from Document\n" :: toolLines 1 ts
       else []) := by
    refine List.mem_append_right _ ?_
    rw [if_pos hne]
    exact List.mem_cons_of_mem _ he
  have hformatted : ((if req ≠ [] then
      "### Required for Implementation\n" ::
        (req.map fun t => "- **" ++ t ++ "**") ++ [""]
      else []) ++
      (if ts ≠ [] then "### Tools from Document\n" :: toolLines 1 ts
       else [])) ≠ [] := by
    intro hempty
    rw [hempty] at hmem
    cases hmem
  rw [if_neg hformatted]
  exact substr_joinSep "\n" hmem hc

/-- C8: for every pipeline state and timestamp, the rendered markdown
contains, as a literal substring, every concept string, every theorem
name and every tool name present in the state — the renderer truncates
none of these sequences. -/
theorem rendered_contains_names (st : AgentState) (ts : String) :
    (∀ c ∈ st.main_concepts.getD [], SubStr c (generate st ts)) ∧
      (∀ t ∈ st.theorems.getD [], SubStr t.name (generate st ts)) ∧
      (∀ t ∈ st.tools.getD [], SubStr t.name (generate st ts)) := by
  refine ⟨?_, ?_, ?_⟩
  · intro c hc
    refine substr_trans (substr_formatConcepts hc) ?_
    simp only [generate, renderMarkdown]
    exact substr_concatAll (by simp)
  · intro t ht
    refine substr_trans (substr_formatTheorems ht) ?_
    simp only [generate, renderMarkdown]
    exact substr_concatAll (by simp)
  · intro t ht
    refine substr_trans
      (substr_formatTools (match st.implementation_guide with
        | some g => g.required_tools
        | none => []) ht) ?_
    simp only [generate, renderMarkdown]
    exact substr_concatAll (by simp)

/-- Witness for the renderer round-trip theorem on a concrete state. -/
theorem rendered_contains_names_witness :
    SubStr "Alpha Beta" (generate sampleState "2026-01-01 00:00:00 UTC") ∧
      SubStr "Central Limit"
        (generate sampleState "2026-01-01 00:00:00 UTC") ∧
      SubStr "NumPy" (generate sampleState "2026-01-01 00:00:00 UTC") :=
  ⟨(rendered_contains_names sampleState "2026-01-01 00:00:00 UTC").1
      "Alpha Beta" (by decide),
    (rendered_contains_names sampleState "2026-01-01 00:00:00 UTC").2.1
      { name := "Central Limit"
        description := "Extracted from document"
        type := "theorem" } (by decide),
    (rendered_contains_names sampleState "2026-01-01 00:00:00 UTC").2.2
      { name := "NumPy"
        description := "Library/tool mentioned in document"
        type := "library" } (by decide)⟩

end Paper2Skill
